import Mathlib

/-!
# Microservice-Demo: gateway, product service and identity service (uaa)

A shallow embedding of the three Go programs of the repository
(`src/gateway/main.go`, `src/product/main.go`, `src/uaa/main.go`) and the
properties of their authentication / authorisation / routing core.

Layout: the Go standard-library and third-party pieces the programs call
(`strings`, `fmt`, gin, golang-jwt) are modelled first, then each program in
its own namespace (the three programs are three `package main`s that reuse the
same function names), then the theorems.
-/

set_option autoImplicit false

/-! ## Go standard library pieces -/

namespace Strings

/-- Go `strings.HasPrefix(s, p)`. -/
def HasPrefix (s p : String) : Bool :=
  p.data.isPrefixOf s.data

/-- Go `strings.TrimPrefix(s, p)`: `s` without the leading `p` when `s` starts
with `p` (removed once), `s` itself otherwise. -/
def TrimPrefix (s p : String) : String :=
  if HasPrefix s p then String.mk (s.data.drop p.data.length) else s

/-- Go `strings.HasSuffix(s, p)`. -/
def HasSuffix (s p : String) : Bool :=
  p.data.reverse.isPrefixOf s.data.reverse

end Strings

/-- Go `[]byte`. -/
abbrev Bytes := List UInt8

/-- Go `[]byte(s)`: the UTF-8 bytes of a string. -/
def bytesOfString (s : String) : Bytes :=
  s.data.flatMap String.utf8EncodeChar

/-- Splits a path at every `/`: `/products/42` gives `["", "products", "42"]`. -/
def splitSlash : List Char → List (List Char)
  | [] => [[]]
  | c :: cs =>
    if c = '/' then [] :: splitSlash cs
    else
      match splitSlash cs with
      | [] => [[c]]
      | seg :: segs => (c :: seg) :: segs

/-! ## gin: request context, handler chains and the router

The parts of `github.com/gin-gonic/gin` the three programs rely on.  A handler
is a function on the request context.  gin runs the handlers of a route in
order (`Context.Next` is a loop over the remaining handlers) and `Context.Abort`
makes that loop stop, so a handler whose last statement is `c.Next()` is the
same as one that just returns: `runHandlers` below is that loop. -/

namespace Gin

/-- What a handler writes with `c.JSON` / `c.String`. -/
inductive Body where
  /-- A `gin.H` object whose values are strings. -/
  | H (fields : List (String × String))
  /-- A plain-text body. -/
  | text (s : String)
  /-- Any other marshalled payload (business records). -/
  | payload (s : String)
  deriving DecidableEq, Repr

structure Response where
  status : Nat
  body : Body
  deriving DecidableEq, Repr

/-- Values stored with `c.Set`. -/
inductive KeyValue where
  | uint (n : Nat)
  | str (s : String)
  deriving DecidableEq, Repr

structure Request where
  Method : String
  Path : String
  Header : List (String × String)
  deriving DecidableEq, Repr

structure Context where
  Request : Request
  Keys : List (String × KeyValue)
  response : Option Response
  aborted : Bool
  deriving DecidableEq, Repr

abbrev HandlerFunc := Context → Context

/-- The context gin hands to the first handler of a request. -/
def newContext (req : Request) : Context :=
  { Request := req, Keys := [], response := none, aborted := false }

/-- Method `c.GetHeader(key)`: the header value, `""` when the header is absent. -/
def Context.GetHeader (c : Context) (key : String) : String :=
  (c.Request.Header.lookup key).getD ""

/-- Method `c.Set(key, value)`: stores the value under the key, replacing an
earlier one. -/
def Context.Set (c : Context) (key : String) (v : KeyValue) : Context :=
  { c with Keys := (key, v) :: c.Keys.filter (fun kv => kv.1 != key) }

/-- Method `c.GetString(key)`: the stored value when it exists and is a string, `""` otherwise. -/
def Context.GetString (c : Context) (key : String) : String :=
  match c.Keys.lookup key with
  | some (KeyValue.str s) => s
  | _ => ""

/-- Method `c.JSON(code, obj)`: writes the reply. -/
def Context.JSON (c : Context) (code : Nat) (obj : Body) : Context :=
  { c with response := some { status := code, body := obj } }

/-- Method `c.Abort()`: no handler after the current one runs. -/
def Context.Abort (c : Context) : Context :=
  { c with aborted := true }

/-- The loop of `Context.Next`: run the handlers in order until one aborts. -/
def runHandlers : List HandlerFunc → Context → Context
  | [], c => c
  | h :: hs, c =>
    let c1 := h c
    if c1.aborted then c1 else runHandlers hs c1

/-- One registered route: `method = none` is `Any`. -/
structure Route (α : Type) where
  method : Option String
  pattern : String
  target : α

/-- Does a route pattern match a path, segment by segment?  A `:name` segment
matches one non-empty segment, a `*name` segment matches the rest of the path. -/
def matchSegments : List (List Char) → List (List Char) → Bool
  | [], [] => true
  | p :: ps, s :: ss =>
    match p with
    | '*' :: _ => true
    | ':' :: _ => !s.isEmpty && matchSegments ps ss
    | _ => p == s && matchSegments ps ss
  | _, _ => false

def Route.matches {α : Type} (r : Route α) (method path : String) : Bool :=
  (match r.method with
   | none => true
   | some m => m == method)
  && matchSegments (splitSlash r.pattern.data) (splitSlash path.data)

/-- What the router finds for a request line. -/
inductive Lookup (α : Type) where
  | found (target : α)
  /-- Redirect of `RedirectTrailingSlash`: the path with the final slash toggled is registered. -/
  | redirect (location : String)
  | notFound
  deriving DecidableEq, Repr

/-- The path with its final slash removed when it has one, added when it has none. -/
def toggleTrailingSlash (path : String) : String :=
  if Strings.HasSuffix path "/" then String.mk path.data.dropLast else path ++ "/"

/-- The router (`Engine.handleHTTPRequest`): the route of the request line, else
a trailing-slash redirect (gin's default `RedirectTrailingSlash = true`; none
for CONNECT and for the root path), else no route. -/
def lookupRoute {α : Type} (routes : List (Route α)) (method path : String) : Lookup α :=
  match routes.find? (fun r => r.matches method path) with
  | some r => Lookup.found r.target
  | none =>
    if method != "CONNECT" && path != "/"
        && routes.any (fun r => r.matches method (toggleTrailingSlash path)) then
      Lookup.redirect (toggleTrailingSlash path)
    else Lookup.notFound

/-- The reply gin writes for a trailing-slash redirect: 301 for GET, 307 otherwise. -/
def redirectResponse (method location : String) : Response :=
  { status := if method = "GET" then 301 else 307, body := Body.text location }

/-- The default reply of gin when no route matches. -/
def default404 : Response :=
  { status := 404, body := Body.text "404 page not found" }

end Gin

/-! ## golang-jwt: signed tokens

The parts of `github.com/golang-jwt/jwt/v5` the programs call.  A token on the
wire is three dot-separated base64url segments: header, claims payload and the
HMAC of the first two under the signing key.  The model keeps the decoded
content of the three segments (`Token`) and takes the byte-level functions of
the library as the fields of `Lib`: the keyed MAC and the wire codec. -/

namespace JWT

/-- The JSON values of a flat claims payload.  Numbers are the integral ones
(the programs put `uint` and `int64` values in their claims). -/
inductive Value where
  | str (s : String)
  | num (n : Int)
  | bool (b : Bool)
  | null
  deriving DecidableEq, Repr

/-- Go `jwt.MapClaims`, the claims payload as key/value pairs. -/
abbrev MapClaims := List (String × Value)

/-- The decoded content of a token string. -/
structure Token where
  /-- The `alg` field of the header segment. -/
  alg : String
  /-- The claims segment. -/
  claims : MapClaims
  /-- The signature segment. -/
  signature : Bytes
  deriving DecidableEq, Repr

/-- The byte-level functions of the library. -/
structure Lib where
  /-- The MAC of the signing input (header and claims segments) for an
  algorithm name and a key: HMAC-SHA256 for `HS256`. -/
  hmac : String → Bytes → MapClaims → Bytes
  /-- The wire form of a token: `base64url(header).base64url(claims).base64url(signature)`. -/
  encode : Token → String
  /-- Splitting and decoding a token string; `none` when it is malformed. -/
  decode : String → Option Token

/-- The reasons `Parse` / `ParseWithClaims` fail. -/
inductive Error where
  | malformed
  | unverifiable
  | signatureInvalid
  | invalidClaims
  | expired
  | notValidYet
  deriving DecidableEq, Repr

/-- Go `jwt.NewWithClaims(jwt.SigningMethodHS256, claims).SignedString(key)` for a
`[]byte` key (the error result is always nil for such a key). -/
def SignedString (lib : Lib) (claims : MapClaims) (key : Bytes) : String :=
  lib.encode { alg := "HS256", claims := claims, signature := lib.hmac "HS256" key claims }

/-- The signing methods that accept the `[]byte` key the programs' key
functions return. -/
def isHMAC (alg : String) : Bool :=
  alg == "HS256" || alg == "HS384" || alg == "HS512"

/-- Method `SigningMethodHMAC.Verify`: recompute the MAC under the key and compare. -/
def verifySignature (lib : Lib) (t : Token) (key : Bytes) : Bool :=
  lib.hmac t.alg key t.claims == t.signature

/-- Decoding a JSON value into a `*NumericDate` field of `jwt.RegisteredClaims`
(`exp`, `nbf`): absent or null leaves the pointer nil, a number is a date in
Unix seconds, anything else is treated as a decoding error (the library also
accepts a string that spells a number, which the tokens of these programs
never carry). -/
def unmarshalNumericDate (v : Option Value) : Option (Option Int) :=
  match v with
  | none => some none
  | some Value.null => some none
  | some (Value.num n) => some (some n)
  | some _ => none

/-- Method `MapClaims.parseNumericDate(key)`: an absent key and the number 0 are no
date, any other number is a date in Unix seconds, a value of another type is
an error. -/
def parseNumericDate (claims : MapClaims) (key : String) : Option (Option Int) :=
  match claims.lookup key with
  | none => some none
  | some (Value.num n) => if n = 0 then some none else some (some n)
  | some _ => none

/-- The one second of Go `time.Second`, in nanoseconds. -/
def second : Nat := 1000000000

/-- The default `Validator` on the two dates it reads: `exp`, when present,
must be after `now` (`now.Before(exp)`), and `nbf`, when present, must not be
after `now`.  `now` is in nanoseconds since the Unix epoch, the claims are in
seconds. -/
def validateDates (exp nbf : Option Int) (now : Nat) : Except Error Unit :=
  if (match exp with
      | none => false
      | some e => decide (e * (second : Int) ≤ (now : Int))) then
    Except.error Error.expired
  else if (match nbf with
      | none => false
      | some b => decide ((now : Int) < b * (second : Int))) then
    Except.error Error.notValidYet
  else Except.ok ()

/-- The default `Validator` on `MapClaims`. -/
def validate (claims : MapClaims) (now : Nat) : Except Error Unit :=
  match parseNumericDate claims "exp", parseNumericDate claims "nbf" with
  | none, _ => Except.error Error.invalidClaims
  | _, none => Except.error Error.invalidClaims
  | some exp, some nbf => validateDates exp nbf now

/-- Go `jwt.Parse(tokenString, keyFunc)` where `keyFunc` returns the `[]byte`
key `key`: the claims of the token as `MapClaims` when the string decodes, the
algorithm is an HMAC one, the signature matches under `key` and the registered
claims are valid at `now`. -/
def Parse (lib : Lib) (tokenString : String) (key : Bytes) (now : Nat) :
    Except Error MapClaims :=
  match lib.decode tokenString with
  | none => Except.error Error.malformed
  | some t =>
    if !isHMAC t.alg then Except.error Error.unverifiable
    else if !verifySignature lib t key then Except.error Error.signatureInvalid
    else
      match validate t.claims now with
      | Except.error e => Except.error e
      | Except.ok _ => Except.ok t.claims

/-! An instance of `Lib` that can be run, used where a theorem about every
library with a round-tripping codec is applied to a concrete one, and to run
the programs on concrete requests. -/

namespace Plain

/-- A reader takes one value off the front of a text and returns it with the
rest of the text. -/
abbrev Reader (α : Type) := List Char → Option (α × List Char)

/-- A length, in unary: one stroke per unit, closed by a full stop. -/
def writeLength (n : Nat) : List Char :=
  List.replicate n '|' ++ ['.']

def readLength : Reader Nat
  | '|' :: cs =>
    match readLength cs with
    | some (n, rest) => some (n + 1, rest)
    | none => none
  | '.' :: cs => some (0, cs)
  | _ => none

def writeMany {α : Type} (w : α → List Char) : List α → List Char
  | [] => []
  | x :: xs => w x ++ writeMany w xs

def readMany {α : Type} (r : Reader α) : Nat → Reader (List α)
  | 0, cs => some ([], cs)
  | n + 1, cs =>
    match r cs with
    | none => none
    | some (x, rest) =>
      match readMany r n rest with
      | none => none
      | some (xs, rest2) => some (x :: xs, rest2)

/-- A list: its length, then its elements. -/
def writeList {α : Type} (w : α → List Char) (xs : List α) : List Char :=
  writeLength xs.length ++ writeMany w xs

def readList {α : Type} (r : Reader α) : Reader (List α) :=
  fun cs =>
    match readLength cs with
    | none => none
    | some (n, rest) => readMany r n rest

def writeChar (c : Char) : List Char := [c]

def readChar : Reader Char
  | c :: cs => some (c, cs)
  | [] => none

def writeString (s : String) : List Char :=
  writeList writeChar s.data

def readString : Reader String :=
  fun cs =>
    match readList readChar cs with
    | some (l, rest) => some (String.mk l, rest)
    | none => none

def writeBool (b : Bool) : List Char :=
  [if b then '1' else '0']

def readBool : Reader Bool
  | '1' :: cs => some (true, cs)
  | '0' :: cs => some (false, cs)
  | _ => none

/-- The binary digits of `n`, least significant first; `fuel` bounds their number. -/
def bits : Nat → Nat → List Bool
  | 0, _ => []
  | fuel + 1, n => if n = 0 then [] else (n % 2 == 1) :: bits fuel (n / 2)

def ofBits : List Bool → Nat
  | [] => 0
  | b :: bs => (if b then 1 else 0) + 2 * ofBits bs

def writeNat (n : Nat) : List Char :=
  writeList writeBool (bits n n)

def readNat : Reader Nat :=
  fun cs =>
    match readList readBool cs with
    | some (l, rest) => some (ofBits l, rest)
    | none => none

def writeInt : Int → List Char
  | Int.ofNat n => '+' :: writeNat n
  | Int.negSucc n => '-' :: writeNat n

def readInt : Reader Int
  | '+' :: cs =>
    match readNat cs with
    | some (n, rest) => some (Int.ofNat n, rest)
    | none => none
  | '-' :: cs =>
    match readNat cs with
    | some (n, rest) => some (Int.negSucc n, rest)
    | none => none
  | _ => none

def writeByte (b : UInt8) : List Char :=
  writeNat b.toNat

def readByte : Reader UInt8 :=
  fun cs =>
    match readNat cs with
    | some (n, rest) => some (UInt8.ofNat n, rest)
    | none => none

def writeValue : Value → List Char
  | Value.str s => 's' :: writeString s
  | Value.num n => 'n' :: writeInt n
  | Value.bool b => 'b' :: writeBool b
  | Value.null => ['z']

def readValue : Reader Value
  | 's' :: cs =>
    match readString cs with
    | some (s, rest) => some (Value.str s, rest)
    | none => none
  | 'n' :: cs =>
    match readInt cs with
    | some (n, rest) => some (Value.num n, rest)
    | none => none
  | 'b' :: cs =>
    match readBool cs with
    | some (b, rest) => some (Value.bool b, rest)
    | none => none
  | 'z' :: cs => some (Value.null, cs)
  | _ => none

def writeClaim (kv : String × Value) : List Char :=
  writeString kv.1 ++ writeValue kv.2

def readClaim : Reader (String × Value) :=
  fun cs =>
    match readString cs with
    | none => none
    | some (k, rest) =>
      match readValue rest with
      | none => none
      | some (v, rest2) => some ((k, v), rest2)

def writeToken (t : Token) : List Char :=
  writeString t.alg ++ (writeList writeClaim t.claims ++ writeList writeByte t.signature)

def readToken : Reader Token :=
  fun cs =>
    match readString cs with
    | none => none
    | some (alg, rest) =>
      match readList readClaim rest with
      | none => none
      | some (claims, rest2) =>
        match readList readByte rest2 with
        | none => none
        | some (signature, rest3) =>
          some ({ alg := alg, claims := claims, signature := signature }, rest3)

/-- The law of a writer and its reader: what was written is read back, and the
rest of the text is left untouched. -/
def Inverse {α : Type} (w : α → List Char) (r : Reader α) : Prop :=
  ∀ (x : α) (rest : List Char), r (w x ++ rest) = some (x, rest)

end Plain

/-- An instance of the library interface that can be run: tokens are written in
a plain length-tagged text form, and the MAC of a payload under a key is the
key followed by a one-byte checksum of the payload text. -/
def plainLib : Lib where
  hmac := fun alg key claims =>
    key ++ [UInt8.ofNat
      ((Plain.writeString alg ++ Plain.writeList Plain.writeClaim claims).map Char.toNat).sum]
  encode := fun t => String.mk (Plain.writeToken t)
  decode := fun s =>
    match Plain.readToken s.data with
    | some (t, []) => some t
    | _ => none

end JWT

/-! ## The product service (`src/product/main.go`) -/

namespace Product

/-- The Go struct `UserClaims` (lines 39-44): the three tagged fields and, of the
embedded `jwt.RegisteredClaims`, the two dates the validator reads. -/
structure UserClaims where
  /-- Field `UserID uint`, tag `user_id`. -/
  UserID : Nat
  /-- Field `Username string`, tag `username`. -/
  Username : String
  /-- Field `Role string`, tag `role`. -/
  Role : String
  /-- Field `RegisteredClaims.ExpiresAt`, tag `exp`. -/
  ExpiresAt : Option Int
  /-- Field `RegisteredClaims.NotBefore`, tag `nbf`. -/
  NotBefore : Option Int
  deriving DecidableEq, Repr

/-- Decoding a JSON value into a `uint` field (64 bits): absent or null leaves the
zero value, a number in range is stored, anything else is a decoding error. -/
def unmarshalUint (v : Option JWT.Value) : Option Nat :=
  match v with
  | none => some 0
  | some JWT.Value.null => some 0
  | some (JWT.Value.num n) => if 0 ≤ n ∧ n.toNat < 2 ^ 64 then some n.toNat else none
  | some _ => none

/-- Decoding a JSON value into a `string` field. -/
def unmarshalString (v : Option JWT.Value) : Option String :=
  match v with
  | none => some ""
  | some JWT.Value.null => some ""
  | some (JWT.Value.str s) => some s
  | some _ => none

/-- Decoding a claims payload into `UserClaims`, field by field through the
struct tags (a key is matched by its exact spelling). -/
def UserClaims.unmarshal (m : JWT.MapClaims) : Option UserClaims :=
  match unmarshalUint (m.lookup "user_id"), unmarshalString (m.lookup "username"),
      unmarshalString (m.lookup "role"), JWT.unmarshalNumericDate (m.lookup "exp"),
      JWT.unmarshalNumericDate (m.lookup "nbf") with
  | some uid, some name, some role, some exp, some nbf =>
    some { UserID := uid, Username := name, Role := role, ExpiresAt := exp, NotBefore := nbf }
  | _, _, _, _, _ => none

/-- Go `jwt.ParseWithClaims(tokenString, &UserClaims{}, keyFunc)` where `keyFunc`
returns `key`: as `JWT.Parse`, with the payload decoded into `UserClaims`. -/
def ParseWithClaims (lib : JWT.Lib) (tokenString : String) (key : Bytes) (now : Nat) :
    Except JWT.Error UserClaims :=
  match lib.decode tokenString with
  | none => Except.error JWT.Error.malformed
  | some t =>
    match UserClaims.unmarshal t.claims with
    | none => Except.error JWT.Error.malformed
    | some claims =>
      if !JWT.isHMAC t.alg then Except.error JWT.Error.unverifiable
      else if !JWT.verifySignature lib t key then Except.error JWT.Error.signatureInvalid
      else
        match JWT.validateDates claims.ExpiresAt claims.NotBefore now with
        | Except.error e => Except.error e
        | Except.ok _ => Except.ok claims

/-- The handler returned by `authMiddleware()` (lines 156-190).  `jwtSecret` is
the package variable read by the key function, `now` the clock reading of the
validator. -/
def authMiddleware (lib : JWT.Lib) (jwtSecret : Bytes) (now : Nat) : Gin.HandlerFunc :=
  fun c =>
    if c.Request.Path = "/health" then
      c
    else
      let tokenString := c.GetHeader "Authorization"
      if tokenString = "" then
        (c.JSON 401 (Gin.Body.H [("error", "缺少认证令牌")])).Abort
      else
        let tokenString := Strings.TrimPrefix tokenString "Bearer "
        match ParseWithClaims lib tokenString jwtSecret now with
        | Except.error _ =>
          (c.JSON 401 (Gin.Body.H [("error", "无效的令牌")])).Abort
        | Except.ok claims =>
          ((c.Set "user_id" (Gin.KeyValue.uint claims.UserID)).Set "username"
            (Gin.KeyValue.str claims.Username)).Set "role" (Gin.KeyValue.str claims.Role)

/-- Go `hasPermission` (lines 209-220): the `switch userRole` with its four
branches. -/
def hasPermission (userRole requiredRole : String) : Bool :=
  if userRole = "PRODUCT_ADMIN" then true
  else if userRole = "EDITOR" then requiredRole == "USER" || requiredRole == "EDITOR"
  else if userRole = "USER" then requiredRole == "USER"
  else false

/-- The handler returned by `requireRole(requiredRole)` (lines 193-206). -/
def requireRole (requiredRole : String) : Gin.HandlerFunc :=
  fun c =>
    let userRole := c.GetString "role"
    if !hasPermission userRole requiredRole then
      (c.JSON 403 (Gin.Body.H [("error", "权限不足")])).Abort
    else
      c

/-- The handlers `main` registers. -/
inductive Endpoint where
  | getProducts
  | getProduct
  | createProduct
  | updateProduct
  | deleteProduct
  | health
  deriving DecidableEq, Repr

/-- The routing table built by `main` (lines 73-85): group `/products` and `/health`. -/
def routes : List (Gin.Route Endpoint) :=
  [ { method := some "GET", pattern := "/products", target := Endpoint.getProducts },
    { method := some "GET", pattern := "/products/:id", target := Endpoint.getProduct },
    { method := some "POST", pattern := "/products", target := Endpoint.createProduct },
    { method := some "PUT", pattern := "/products/:id", target := Endpoint.updateProduct },
    { method := some "DELETE", pattern := "/products/:id", target := Endpoint.deleteProduct },
    { method := some "GET", pattern := "/health", target := Endpoint.health } ]

/-- The role each route declares through `requireRole` (lines 75-79); `/health`
declares none. -/
def requiredRoleOf : Endpoint → Option String
  | Endpoint.getProducts => some "USER"
  | Endpoint.getProduct => some "USER"
  | Endpoint.createProduct => some "EDITOR"
  | Endpoint.updateProduct => some "EDITOR"
  | Endpoint.deleteProduct => some "EDITOR"
  | Endpoint.health => none

/-- The anonymous handler of `/health` (lines 83-85). -/
def healthHandler : Gin.HandlerFunc :=
  fun c => c.JSON 200 (Gin.Body.H [("status", "ok")])

/-- The handlers of a route after the global middleware.  `biz` stands for the
five database-backed business handlers. -/
def routeHandlers (biz : Endpoint → Gin.HandlerFunc) (e : Endpoint) : List Gin.HandlerFunc :=
  match requiredRoleOf e with
  | some q => [requireRole q, biz e]
  | none => [healthHandler]

/-- The engine `main` runs: `r.Use(authMiddleware())` puts the gate before the
handlers of every route and before the no-route reply.  (The `Logger` and
`Recovery` middleware of `gin.Default()` write nothing on a chain that does not
fault and are left out.) -/
def serve (lib : JWT.Lib) (jwtSecret : Bytes) (now : Nat) (biz : Endpoint → Gin.HandlerFunc)
    (req : Gin.Request) : Gin.Context :=
  match Gin.lookupRoute routes req.Method req.Path with
  | Gin.Lookup.found e =>
    Gin.runHandlers (authMiddleware lib jwtSecret now :: routeHandlers biz e) (Gin.newContext req)
  | Gin.Lookup.redirect location =>
    { Gin.newContext req with response := some (Gin.redirectResponse req.Method location) }
  | Gin.Lookup.notFound =>
    let c := Gin.runHandlers [authMiddleware lib jwtSecret now] (Gin.newContext req)
    match c.response with
    | some _ => c
    | none => { c with response := some Gin.default404 }

/-- The ten years of `10 * 365 * 24 * time.Hour`, in nanoseconds. -/
def tenYears : Nat := 10 * 365 * 24 * 3600 * JWT.second

/-- The claims of `generateSystemToken` (lines 93-97), issued at `now`. -/
def systemClaims (now : Nat) : JWT.MapClaims :=
  [ ("system", JWT.Value.str "health_checker"),
    ("exp", JWT.Value.num (((now + tenYears) / JWT.second : Nat) : Int)),
    ("role", JWT.Value.str "SYSTEM") ]

/-- Go `generateSystemToken` (lines 92-102): signs with the package variable
`jwtSecret` as it is when the function runs. -/
def generateSystemToken (lib : JWT.Lib) (jwtSecret : Bytes) (now : Nat) : String :=
  JWT.SignedString lib (systemClaims now) jwtSecret

/-- The package variables of the program that the startup sequence touches. -/
structure Globals where
  /-- Package variable `jwtSecret []byte`. -/
  jwtSecret : Bytes
  /-- The process environment. -/
  env : String → String

/-- The state of the program when it is loaded: `jwtSecret` has the zero value
of `[]byte`. -/
def initialGlobals (env : String → String) : Globals :=
  { jwtSecret := [], env := env }

/-- Go `os.Setenv(key, value)`. -/
def Setenv (g : Globals) (key value : String) : Globals :=
  { g with env := fun k => if k = key then value else g.env k }

/-- The first statements of `main` (lines 53-61), in program order: the system
token is generated and exported, then `jwtSecret` is read from `JWT_SECRET`.
Returns the system token and the globals the server then runs with. -/
def main (lib : JWT.Lib) (env : String → String) (now : Nat) : String × Globals :=
  let g0 := initialGlobals env
  let systemToken := generateSystemToken lib g0.jwtSecret now
  let g1 := Setenv g0 "SYSTEM_TOKEN" systemToken
  let g2 := { g1 with jwtSecret := bytesOfString (g1.env "JWT_SECRET") }
  (systemToken, g2)

end Product

/-! ## The gateway (`src/gateway/main.go`) -/

namespace Gateway

/-- One entry of a registry answer: `service.Service.Address` and
`service.Service.Port` of a consul `ServiceEntry`. -/
structure ServiceEntry where
  Address : String
  Port : Int
  deriving DecidableEq, Repr

/-- The registry query `consulClient.Health().Service(name, "", true, nil)`: the
healthy instances of a service, or an error. -/
abbrev HealthService := String → Except String (List ServiceEntry)

/-- Go `getServiceAddress` (lines 90-102). -/
def getServiceAddress (healthService : HealthService) (serviceName : String) :
    Except String String :=
  match healthService serviceName with
  | Except.error err => Except.error err
  | Except.ok services =>
    match services with
    | [] => Except.error ("服务 " ++ serviceName ++ " 未找到")
    | service :: _ => Except.ok (service.Address ++ ":" ++ toString service.Port)

/-- The path rewriting of `proxyToService` (lines 74-82): the path the request
carries when it is handed to the reverse proxy. -/
def rewritePath (serviceName originalPath : String) : String :=
  let path :=
    if serviceName = "uaa" then Strings.TrimPrefix originalPath "/auth"
    else if serviceName = "product" then Strings.TrimPrefix originalPath "/products"
    else originalPath
  if path = "" then "/" else path

/-- What the handler of `proxyToService` does with a request: it answers itself,
or it hands the rewritten request to the reverse proxy for a target. -/
inductive Outcome where
  | json (status : Nat) (body : Gin.Body)
  | forward (target : String) (request : Gin.Request)
  deriving DecidableEq, Repr

/-- The handler returned by `proxyToService(serviceName)` (lines 55-87).
`urlParse` is Go `url.Parse`. -/
def proxyToService (healthService : HealthService) (urlParse : String → Option String)
    (serviceName : String) (req : Gin.Request) : Outcome :=
  match getServiceAddress healthService serviceName with
  | Except.error _ =>
    Outcome.json 503 (Gin.Body.H [("error", "服务 " ++ serviceName ++ " 不可用")])
  | Except.ok serviceAddr =>
    match urlParse ("http://" ++ serviceAddr) with
    | none => Outcome.json 500 (Gin.Body.H [("error", "代理配置错误")])
    | some target =>
      Outcome.forward target { req with Path := rewritePath serviceName req.Path }

/-- The handlers `main` registers (lines 23-37). -/
inductive Endpoint where
  | proxy (serviceName : String)
  | health
  deriving DecidableEq, Repr

/-- The routing table built by `main`: `Any` on the two catch-all groups, and `/health`. -/
def routes : List (Gin.Route Endpoint) :=
  [ { method := none, pattern := "/auth/*path", target := Endpoint.proxy "uaa" },
    { method := none, pattern := "/products/*path", target := Endpoint.proxy "product" },
    { method := some "GET", pattern := "/health", target := Endpoint.health } ]

/-- The engine `main` runs. -/
def serve (healthService : HealthService) (urlParse : String → Option String)
    (req : Gin.Request) : Outcome :=
  match Gin.lookupRoute routes req.Method req.Path with
  | Gin.Lookup.found (Endpoint.proxy serviceName) =>
    proxyToService healthService urlParse serviceName req
  | Gin.Lookup.found Endpoint.health => Outcome.json 200 (Gin.Body.H [("status", "ok")])
  | Gin.Lookup.redirect location =>
    Outcome.json (Gin.redirectResponse req.Method location).status
      (Gin.redirectResponse req.Method location).body
  | Gin.Lookup.notFound => Outcome.json 404 Gin.default404.body

end Gateway

/-! ## The identity service (`src/uaa/main.go`) -/

namespace UAA

/-- The Go struct `User` (lines 23-31), without the two timestamps. -/
structure User where
  ID : Nat
  Username : String
  Password : String
  Email : String
  Role : String
  deriving DecidableEq, Repr

/-- The 24 hours of `time.Hour * 24`, in nanoseconds. -/
def day : Nat := 24 * 3600 * JWT.second

/-- The claims of `generateToken` (lines 269-274), issued at `now`. -/
def tokenClaims (user : User) (now : Nat) : JWT.MapClaims :=
  [ ("user_id", JWT.Value.num (user.ID : Int)),
    ("username", JWT.Value.str user.Username),
    ("role", JWT.Value.str user.Role),
    ("exp", JWT.Value.num (((now + day) / JWT.second : Nat) : Int)) ]

/-- Go `generateToken` (lines 268-279); `jwtSecret` is the package variable. -/
def generateToken (lib : JWT.Lib) (jwtSecret : Bytes) (now : Nat) (user : User) : String :=
  JWT.SignedString lib (tokenClaims user now) jwtSecret

/-- The instant, in nanoseconds, at which a token issued at `issued` expires: the
`exp` claim of `tokenClaims`, 24 hours after issuance cut to whole seconds. -/
def expiry (issued : Nat) : Nat :=
  (issued + day) / JWT.second * JWT.second

/-- What a handler of this service writes. -/
inductive Body where
  | H (fields : List (String × String))
  | user (u : User)
  | tokenResponse (token : String) (u : User)
  deriving DecidableEq, Repr

/-- How a handler call ends: with a reply, or with a Go run-time panic. -/
inductive Outcome where
  | json (status : Nat) (body : Body)
  | panic (message : String)
  deriving DecidableEq, Repr

/-- The single-valued type assertion `v.(float64)` on a decoded claim: the
number, or the run-time panic of a failed assertion. -/
def assertFloat64 (v : Option JWT.Value) : Except String Int :=
  match v with
  | some (JWT.Value.num n) => Except.ok n
  | none => Except.error "interface conversion: interface \x7b\x7d is nil, not float64"
  | some (JWT.Value.str _) => Except.error "interface conversion: interface \x7b\x7d is string, not float64"
  | some (JWT.Value.bool _) => Except.error "interface conversion: interface \x7b\x7d is bool, not float64"
  | some JWT.Value.null => Except.error "interface conversion: interface \x7b\x7d is nil, not float64"

/-- Go `validateToken` (lines 237-266).  `dbFirst` is `db.First(&user, userID)`,
`toUint` the conversion `uint(f)` of the decoded number. -/
def validateToken (lib : JWT.Lib) (jwtSecret : Bytes) (now : Nat)
    (dbFirst : Nat → Option User) (toUint : Int → Nat) (req : Gin.Request) : Outcome :=
  let tokenString := (req.Header.lookup "Authorization").getD ""
  if tokenString = "" then
    Outcome.json 401 (Body.H [("error", "缺少认证令牌")])
  else
    let tokenString := Strings.TrimPrefix tokenString "Bearer "
    match JWT.Parse lib tokenString jwtSecret now with
    | Except.error _ => Outcome.json 401 (Body.H [("error", "无效的令牌")])
    | Except.ok claims =>
      match assertFloat64 (claims.lookup "user_id") with
      | Except.error message => Outcome.panic message
      | Except.ok f =>
        let userID := toUint f
        match dbFirst userID with
        | none => Outcome.json 401 (Body.H [("error", "用户不存在")])
        | some user => Outcome.json 200 (Body.user { user with Password := "" })

/-- The handlers `main` registers (lines 67-78). -/
inductive Endpoint where
  | login
  | githubLogin
  | githubCallback
  | register
  | validateToken
  | health
  deriving DecidableEq, Repr

/-- The routing table built by `main`: group `/auth` and `/health`. -/
def routes : List (Gin.Route Endpoint) :=
  [ { method := some "POST", pattern := "/auth/login", target := Endpoint.login },
    { method := some "GET", pattern := "/auth/github", target := Endpoint.githubLogin },
    { method := some "GET", pattern := "/auth/github/callback", target := Endpoint.githubCallback },
    { method := some "POST", pattern := "/auth/register", target := Endpoint.register },
    { method := some "GET", pattern := "/auth/validate", target := Endpoint.validateToken },
    { method := some "GET", pattern := "/health", target := Endpoint.health } ]

end UAA

/-! ## A concrete scenario

One user, one secret and the requests that carry the token the identity
service issues to that user at instant 0, over `JWT.plainLib`. -/

namespace Scenario

def secret : Bytes := bytesOfString "s3cret"

def alice : UAA.User :=
  { ID := 7, Username := "alice", Password := "", Email := "alice@example.org", Role := "USER" }

/-- The token `generateToken` issues to `alice` at instant 0. -/
def token : String := UAA.generateToken JWT.plainLib secret 0 alice

/-- A request that presents `token` as a bearer credential. -/
def request (method path : String) : Gin.Request :=
  { Method := method, Path := path, Header := [("Authorization", "Bearer " ++ token)] }

/-- An environment that configures `JWT_SECRET=s3cret` and nothing else. -/
def env : String → String :=
  fun k => if k = "JWT_SECRET" then "s3cret" else ""

/-- A request to the identity service's `/auth/validate` that presents a token
with the claims of the product service's system credential (no `user_id`),
signed under the shared secret. -/
def systemRequest : Gin.Request :=
  { Method := "GET", Path := "/auth/validate",
    Header := [("Authorization",
      "Bearer " ++ JWT.SignedString JWT.plainLib (Product.systemClaims 0) secret)] }

/-- A business handler that replies 200 with a fixed payload. -/
def biz : Product.Endpoint → Gin.HandlerFunc :=
  fun _ c => c.JSON 200 (Gin.Body.payload "ok")

end Scenario

/-! ## Theorems -/

/-! ### Auxiliary facts about the string functions -/

theorem Strings.TrimPrefix_append (p rest : String) :
    Strings.TrimPrefix (p ++ rest) p = rest := by
  have h : Strings.HasPrefix (p ++ rest) p = true := by
    simp [Strings.HasPrefix, String.data_append]
  simp [Strings.TrimPrefix, h, String.data_append]

/-! ### Role policy -/

/-- C1: `hasPermission` is the documented table.  The top role (`PRODUCT_ADMIN`
in the code) permits USER, EDITOR and ADMIN; EDITOR permits exactly USER and
EDITOR; USER permits exactly USER; every other caller role, the empty string
included, is denied for every required role. -/
theorem Product.hasPermission_truth_table :
    (Product.hasPermission "PRODUCT_ADMIN" "USER" = true ∧
      Product.hasPermission "PRODUCT_ADMIN" "EDITOR" = true ∧
      Product.hasPermission "PRODUCT_ADMIN" "ADMIN" = true) ∧
    (∀ q : String, Product.hasPermission "EDITOR" q = true ↔ (q = "USER" ∨ q = "EDITOR")) ∧
    (∀ q : String, Product.hasPermission "USER" q = true ↔ q = "USER") ∧
    (∀ r q : String, r ≠ "PRODUCT_ADMIN" → r ≠ "EDITOR" → r ≠ "USER" →
      Product.hasPermission r q = false) ∧
    (∀ q : String, Product.hasPermission "" q = false) := by
  refine ⟨⟨by decide, by decide, by decide⟩, ?_, ?_, ?_, ?_⟩
  · intro q
    simp [Product.hasPermission]
  · intro q
    simp [Product.hasPermission]
  · intro r q h1 h2 h3
    simp [Product.hasPermission, h1, h2, h3]
  · intro q
    simp [Product.hasPermission]

/-- C1, at a role outside the table: a GUEST caller is denied the weakest role. -/
theorem Product.hasPermission_truth_table_witness :
    Product.hasPermission "GUEST" "USER" = false :=
  Product.hasPermission_truth_table.2.2.2.1 "GUEST" "USER" (by decide) (by decide) (by decide)

/-! ### The auth gate -/

theorem Product.authMiddleware_health (lib : JWT.Lib) (jwtSecret : Bytes) (now : Nat)
    (c : Gin.Context) (hpath : c.Request.Path = "/health") :
    Product.authMiddleware lib jwtSecret now c = c := by
  simp [Product.authMiddleware, hpath]

theorem Product.authMiddleware_missing (lib : JWT.Lib) (jwtSecret : Bytes) (now : Nat)
    (c : Gin.Context) (hpath : c.Request.Path ≠ "/health")
    (hhdr : c.GetHeader "Authorization" = "") :
    Product.authMiddleware lib jwtSecret now c
      = (c.JSON 401 (Gin.Body.H [("error", "缺少认证令牌")])).Abort := by
  simp [Product.authMiddleware, hpath, hhdr]

theorem Product.authMiddleware_invalid (lib : JWT.Lib) (jwtSecret : Bytes) (now : Nat)
    (c : Gin.Context) (hpath : c.Request.Path ≠ "/health")
    (hhdr : c.GetHeader "Authorization" ≠ "") (e : JWT.Error)
    (hparse : Product.ParseWithClaims lib
      (Strings.TrimPrefix (c.GetHeader "Authorization") "Bearer ") jwtSecret now
        = Except.error e) :
    Product.authMiddleware lib jwtSecret now c
      = (c.JSON 401 (Gin.Body.H [("error", "无效的令牌")])).Abort := by
  simp [Product.authMiddleware, hpath, hhdr, hparse]

theorem Product.authMiddleware_valid (lib : JWT.Lib) (jwtSecret : Bytes) (now : Nat)
    (c : Gin.Context) (hpath : c.Request.Path ≠ "/health")
    (hhdr : c.GetHeader "Authorization" ≠ "") (claims : Product.UserClaims)
    (hparse : Product.ParseWithClaims lib
      (Strings.TrimPrefix (c.GetHeader "Authorization") "Bearer ") jwtSecret now
        = Except.ok claims) :
    Product.authMiddleware lib jwtSecret now c
      = ((c.Set "user_id" (Gin.KeyValue.uint claims.UserID)).Set "username"
          (Gin.KeyValue.str claims.Username)).Set "role" (Gin.KeyValue.str claims.Role) := by
  simp [Product.authMiddleware, hpath, hhdr, hparse]

/-- C2: on a path other than `/health`, `authMiddleware` lets the chain continue
exactly when the Authorization header is non-empty and the token it carries
(the header without a leading `Bearer `) verifies under the shared secret.  In
every other case it replies 401 and aborts: whatever handlers follow, none
runs, the result of the chain is the 401 reply of the gate. -/
theorem Product.authMiddleware_continues_iff (lib : JWT.Lib) (jwtSecret : Bytes) (now : Nat)
    (c : Gin.Context) (hpath : c.Request.Path ≠ "/health") (hlive : c.aborted = false) :
    ((Product.authMiddleware lib jwtSecret now c).aborted = false ↔
      (c.GetHeader "Authorization" ≠ "" ∧
        ∃ claims, Product.ParseWithClaims lib
          (Strings.TrimPrefix (c.GetHeader "Authorization") "Bearer ") jwtSecret now
            = Except.ok claims)) ∧
    ((Product.authMiddleware lib jwtSecret now c).aborted = false →
      ∀ rest : List Gin.HandlerFunc,
        Gin.runHandlers (Product.authMiddleware lib jwtSecret now :: rest) c
          = Gin.runHandlers rest (Product.authMiddleware lib jwtSecret now c)) ∧
    ((Product.authMiddleware lib jwtSecret now c).aborted = true →
      (Product.authMiddleware lib jwtSecret now c).response.map Gin.Response.status = some 401 ∧
      ∀ rest : List Gin.HandlerFunc,
        Gin.runHandlers (Product.authMiddleware lib jwtSecret now :: rest) c
          = Product.authMiddleware lib jwtSecret now c) := by
  refine ⟨?_, ?_, ?_⟩
  · by_cases hhdr : c.GetHeader "Authorization" = ""
    · rw [Product.authMiddleware_missing lib jwtSecret now c hpath hhdr]
      simp [hhdr, Gin.Context.Abort]
    · cases hparse : Product.ParseWithClaims lib
          (Strings.TrimPrefix (c.GetHeader "Authorization") "Bearer ") jwtSecret now with
      | error e =>
        rw [Product.authMiddleware_invalid lib jwtSecret now c hpath hhdr e hparse]
        simp [Gin.Context.Abort]
      | ok claims =>
        rw [Product.authMiddleware_valid lib jwtSecret now c hpath hhdr claims hparse]
        simp [Gin.Context.Set, hlive, hhdr]
  · intro h rest
    simp [Gin.runHandlers, h]
  · intro h
    refine ⟨?_, ?_⟩
    · by_cases hhdr : c.GetHeader "Authorization" = ""
      · rw [Product.authMiddleware_missing lib jwtSecret now c hpath hhdr]
        simp [Gin.Context.Abort, Gin.Context.JSON]
      · cases hparse : Product.ParseWithClaims lib
            (Strings.TrimPrefix (c.GetHeader "Authorization") "Bearer ") jwtSecret now with
        | error e =>
          rw [Product.authMiddleware_invalid lib jwtSecret now c hpath hhdr e hparse]
          simp [Gin.Context.Abort, Gin.Context.JSON]
        | ok claims =>
          rw [Product.authMiddleware_valid lib jwtSecret now c hpath hhdr claims hparse] at h
          simp [Gin.Context.Set, hlive] at h
    · intro rest
      simp [Gin.runHandlers, h]

/-! ### Routing facts of the product service -/

theorem Gin.Route.matches_of_pattern_mismatch {α : Type} (r : Gin.Route α) (m p : String)
    (h : Gin.matchSegments (splitSlash r.pattern.data) (splitSlash p.data) = false) :
    r.matches m p = false := by
  simp [Gin.Route.matches, h]

theorem Gin.Route.matches_of_method_mismatch {α : Type} (r : Gin.Route α) (m0 m p : String)
    (hr : r.method = some m0) (h : m0 ≠ m) :
    r.matches m p = false := by
  simp [Gin.Route.matches, hr, h]

theorem Product.lookup_health_get :
    Gin.lookupRoute Product.routes "GET" "/health" = Gin.Lookup.found Product.Endpoint.health := by
  decide

theorem Product.lookup_health_other (m : String) (hm : m ≠ "GET") :
    Gin.lookupRoute Product.routes m "/health" = Gin.Lookup.notFound := by
  have hm' : "GET" ≠ m := fun h => hm h.symm
  have key : ∀ p : String, (p = "/health" ∨ p = "/health/") →
      ∀ r ∈ Product.routes, r.matches m p = false := by
    intro p hp r hr
    simp only [Product.routes, List.mem_cons, List.mem_singleton, List.not_mem_nil,
      or_false] at hr
    rcases hp with rfl | rfl <;>
    rcases hr with rfl | rfl | rfl | rfl | rfl | rfl <;>
    first
      | exact Gin.Route.matches_of_pattern_mismatch _ _ _ (by decide)
      | exact Gin.Route.matches_of_method_mismatch _ "GET" _ _ rfl hm'
  have h1 : Product.routes.find? (fun r => r.matches m "/health") = none := by
    rw [List.find?_eq_none]
    intro r hr
    simp [key "/health" (Or.inl rfl) r hr]
  have h2 : Product.routes.any (fun r => r.matches m (Gin.toggleTrailingSlash "/health"))
      = false := by
    have ht : Gin.toggleTrailingSlash "/health" = "/health/" := by decide
    rw [ht, List.any_eq_false]
    intro r hr
    simp [key "/health/" (Or.inr rfl) r hr]
  simp [Gin.lookupRoute, h1, h2]

theorem Product.lookup_found_ne_health (m p : String) (e : Product.Endpoint) (q : String)
    (hroute : Gin.lookupRoute Product.routes m p = Gin.Lookup.found e)
    (hq : Product.requiredRoleOf e = some q) : p ≠ "/health" := by
  rintro rfl
  by_cases hm : m = "GET"
  · subst hm
    rw [Product.lookup_health_get] at hroute
    cases hroute
    simp [Product.requiredRoleOf] at hq
  · rw [Product.lookup_health_other m hm] at hroute
    cases hroute

/-! ### The plain codec round-trips -/

theorem JWT.Plain.readLength_writeLength : Inverse writeLength readLength := by
  intro n rest
  induction n with
  | zero => simp [writeLength, readLength]
  | succ n ih =>
    have h : writeLength (n + 1) ++ rest = '|' :: (writeLength n ++ rest) := by
      simp [writeLength, List.replicate_succ]
    rw [h, readLength, ih]

theorem JWT.Plain.readMany_writeMany {α : Type} (w : α → List Char) (r : Reader α)
    (h : Inverse w r) (xs : List α) (rest : List Char) :
    readMany r xs.length (writeMany w xs ++ rest) = some (xs, rest) := by
  induction xs with
  | nil => simp [readMany, writeMany]
  | cons x xs ih =>
    simp [readMany, writeMany, List.append_assoc, h x, ih]

theorem JWT.Plain.readList_writeList {α : Type} (w : α → List Char) (r : Reader α)
    (h : Inverse w r) : Inverse (writeList w) (readList r) := by
  intro xs rest
  simp [writeList, readList, List.append_assoc, readLength_writeLength xs.length,
    readMany_writeMany w r h]

theorem JWT.Plain.readChar_writeChar : Inverse writeChar readChar := by
  intro c rest
  simp [writeChar, readChar]

theorem JWT.Plain.readString_writeString : Inverse writeString readString := by
  intro s rest
  simp [writeString, readString, readList_writeList writeChar readChar readChar_writeChar s.data]

theorem JWT.Plain.readBool_writeBool : Inverse writeBool readBool := by
  intro b rest
  cases b <;> simp [writeBool, readBool]

theorem JWT.Plain.ofBits_bits (fuel n : Nat) (h : n ≤ fuel) : ofBits (bits fuel n) = n := by
  induction fuel generalizing n with
  | zero =>
    have : n = 0 := by omega
    simp [bits, ofBits, this]
  | succ fuel ih =>
    by_cases h0 : n = 0
    · simp [bits, ofBits, h0]
    · have hhalf : n / 2 ≤ fuel := by omega
      simp only [bits, h0, if_false, ofBits, ih (n / 2) hhalf]
      by_cases hodd : n % 2 = 1
      · simp [hodd]; omega
      · simp [hodd]; omega

theorem JWT.Plain.readNat_writeNat : Inverse writeNat readNat := by
  intro n rest
  simp [writeNat, readNat, readList_writeList writeBool readBool readBool_writeBool (bits n n),
    ofBits_bits n n (Nat.le_refl n)]

theorem JWT.Plain.readInt_writeInt : Inverse writeInt readInt := by
  intro n rest
  cases n with
  | ofNat n => simp [writeInt, readInt, readNat_writeNat n]
  | negSucc n => simp [writeInt, readInt, readNat_writeNat n]

theorem JWT.Plain.readByte_writeByte : Inverse writeByte readByte := by
  intro b rest
  have hb : UInt8.ofNat b.toNat = b := by
    cases b
    simp [UInt8.ofNat, UInt8.toNat]
  simp [writeByte, readByte, readNat_writeNat b.toNat, hb]

theorem JWT.Plain.readValue_writeValue : Inverse writeValue readValue := by
  intro v rest
  cases v with
  | str s => simp [writeValue, readValue, readString_writeString s]
  | num n => simp [writeValue, readValue, readInt_writeInt n]
  | bool b => simp [writeValue, readValue, readBool_writeBool b]
  | null => simp [writeValue, readValue]

theorem JWT.Plain.readClaim_writeClaim : Inverse writeClaim readClaim := by
  intro kv rest
  simp [writeClaim, readClaim, List.append_assoc, readString_writeString kv.1,
    readValue_writeValue kv.2]

theorem JWT.Plain.readToken_writeToken : Inverse writeToken readToken := by
  intro t rest
  simp [writeToken, readToken, List.append_assoc, readString_writeString t.alg,
    readList_writeList writeClaim readClaim readClaim_writeClaim t.claims,
    readList_writeList writeByte readByte readByte_writeByte t.signature]

theorem JWT.plainLib_decode_encode (t : JWT.Token) :
    JWT.plainLib.decode (JWT.plainLib.encode t) = some t := by
  have h := JWT.Plain.readToken_writeToken t []
  rw [List.append_nil] at h
  simp [JWT.plainLib, h]

/-! ### Issued tokens are accepted by the verifier -/

theorem Product.unmarshal_tokenClaims (user : UAA.User) (hid : user.ID < 2 ^ 64) (issued : Nat) :
    Product.UserClaims.unmarshal (UAA.tokenClaims user issued)
      = some { UserID := user.ID, Username := user.Username, Role := user.Role,
               ExpiresAt := some (((issued + UAA.day) / JWT.second : Nat) : Int),
               NotBefore := none } := by
  have hid' : (0 : Int) ≤ (user.ID : Int) ∧ (user.ID : Int).toNat < 2 ^ 64 :=
    ⟨Int.ofNat_nonneg _, by rw [Int.toNat_ofNat]; exact hid⟩
  have h1 : List.lookup "user_id" (UAA.tokenClaims user issued)
      = some (JWT.Value.num user.ID) := rfl
  have h2 : List.lookup "username" (UAA.tokenClaims user issued)
      = some (JWT.Value.str user.Username) := rfl
  have h3 : List.lookup "role" (UAA.tokenClaims user issued)
      = some (JWT.Value.str user.Role) := rfl
  have h4 : List.lookup "exp" (UAA.tokenClaims user issued)
      = some (JWT.Value.num (((issued + UAA.day) / JWT.second : Nat) : Int)) := rfl
  have h5 : List.lookup "nbf" (UAA.tokenClaims user issued) = none := rfl
  unfold Product.UserClaims.unmarshal
  rw [h1, h2, h3, h4, h5]
  simp only [Product.unmarshalUint, Product.unmarshalString, JWT.unmarshalNumericDate]
  rw [if_pos hid']
  simp

theorem JWT.validateDates_of_exp (exp now : Nat) (hnow : now < exp * JWT.second) :
    JWT.validateDates (some (exp : Int)) none now = Except.ok () := by
  have hlt : ¬ ((exp : Int) * (JWT.second : Int) ≤ (now : Int)) := by
    have : (now : Int) < ((exp * JWT.second : Nat) : Int) := by exact_mod_cast hnow
    push_cast at this
    exact not_le.mpr this
  unfold JWT.validateDates
  simp only [hlt, decide_False, Bool.false_eq_true, if_false]

theorem JWT.validate_of_exp (claims : JWT.MapClaims) (exp now : Nat)
    (hexp : List.lookup "exp" claims = some (JWT.Value.num (exp : Int)))
    (hnbf : List.lookup "nbf" claims = none)
    (hnow : now < exp * JWT.second) :
    JWT.validate claims now = Except.ok () := by
  have hpos : (exp : Int) ≠ 0 := by
    intro h
    have h0 : exp = 0 := by exact_mod_cast h
    rw [h0] at hnow
    simp at hnow
  unfold JWT.validate JWT.parseNumericDate
  rw [hexp, hnbf]
  simp only [hpos, if_false]
  exact JWT.validateDates_of_exp exp now hnow

theorem Product.ParseWithClaims_SignedString (lib : JWT.Lib)
    (hcodec : ∀ t : JWT.Token, lib.decode (lib.encode t) = some t)
    (claims : JWT.MapClaims) (decoded : Product.UserClaims)
    (hdecoded : Product.UserClaims.unmarshal claims = some decoded)
    (key : Bytes) (now : Nat)
    (hv : JWT.validateDates decoded.ExpiresAt decoded.NotBefore now = Except.ok ()) :
    Product.ParseWithClaims lib (JWT.SignedString lib claims key) key now
      = Except.ok decoded := by
  have halg : JWT.isHMAC "HS256" = true := by decide
  unfold Product.ParseWithClaims JWT.SignedString
  rw [hcodec]
  simp only [hdecoded, halg, JWT.verifySignature, hv]
  simp only [beq_self_eq_true, Bool.not_true, Bool.false_eq_true, if_false]

theorem Product.ParseWithClaims_generateToken (lib : JWT.Lib)
    (hcodec : ∀ t : JWT.Token, lib.decode (lib.encode t) = some t)
    (secret : Bytes) (user : UAA.User) (hid : user.ID < 2 ^ 64) (issued now : Nat)
    (hnow : now < UAA.expiry issued) :
    Product.ParseWithClaims lib (UAA.generateToken lib secret issued user) secret now
      = Except.ok { UserID := user.ID, Username := user.Username, Role := user.Role,
                    ExpiresAt := some (((issued + UAA.day) / JWT.second : Nat) : Int),
                    NotBefore := none } :=
  Product.ParseWithClaims_SignedString lib hcodec (UAA.tokenClaims user issued) _
    (Product.unmarshal_tokenClaims user hid issued) secret now
    (JWT.validateDates_of_exp ((issued + UAA.day) / JWT.second) now hnow)

/-- C2, at a request without credential: `GET /products` with no Authorization
header is answered 401 by the gate. -/
theorem Product.authMiddleware_continues_iff_witness :
    (Product.authMiddleware JWT.plainLib [] 0
        (Gin.newContext { Method := "GET", Path := "/products", Header := [] })).response.map
      Gin.Response.status = some 401 :=
  ((Product.authMiddleware_continues_iff JWT.plainLib [] 0
      (Gin.newContext { Method := "GET", Path := "/products", Header := [] })
      (by decide) (by decide)).2.2 (by decide)).1

/-! ### The role gate -/

theorem Product.requireRole_denied (q : String) (c : Gin.Context)
    (h : Product.hasPermission (c.GetString "role") q = false) :
    Product.requireRole q c = (c.JSON 403 (Gin.Body.H [("error", "权限不足")])).Abort := by
  simp [Product.requireRole, h]

theorem Product.requireRole_permitted (q : String) (c : Gin.Context)
    (h : Product.hasPermission (c.GetString "role") q = true) :
    Product.requireRole q c = c := by
  simp [Product.requireRole, h]

theorem Product.authMiddleware_valid_role (lib : JWT.Lib) (jwtSecret : Bytes) (now : Nat)
    (c : Gin.Context) (hpath : c.Request.Path ≠ "/health")
    (hhdr : c.GetHeader "Authorization" ≠ "") (claims : Product.UserClaims)
    (hparse : Product.ParseWithClaims lib
      (Strings.TrimPrefix (c.GetHeader "Authorization") "Bearer ") jwtSecret now
        = Except.ok claims) :
    (Product.authMiddleware lib jwtSecret now c).GetString "role" = claims.Role ∧
    (Product.authMiddleware lib jwtSecret now c).aborted = c.aborted ∧
    (Product.authMiddleware lib jwtSecret now c).response = c.response := by
  rw [Product.authMiddleware_valid lib jwtSecret now c hpath hhdr claims hparse]
  simp [Gin.Context.Set, Gin.Context.GetString, List.lookup]

/-- C3: a verified token with role `r = claims.Role` on a product route that
declares the required role `q`.  The gate (`authMiddleware` then
`requireRole q`) aborts exactly when `hasPermission r q` is false, and then the
reply of the server is the 403 of `requireRole`; otherwise the gate writes
nothing and the server's reply is that of the business handler run on the
context the gate produced.  The routes POST/PUT/DELETE under `/products`
declare EDITOR and the two GET routes declare USER, so a USER token is answered
403 on the former and reaches the business handler on the latter. -/
theorem Product.gate_rejects_iff_not_permitted (lib : JWT.Lib) (jwtSecret : Bytes) (now : Nat)
    (biz : Product.Endpoint → Gin.HandlerFunc) (req : Gin.Request)
    (e : Product.Endpoint) (q : String)
    (hroute : Gin.lookupRoute Product.routes req.Method req.Path = Gin.Lookup.found e)
    (hq : Product.requiredRoleOf e = some q)
    (claims : Product.UserClaims)
    (hhdr : (Gin.newContext req).GetHeader "Authorization" ≠ "")
    (hparse : Product.ParseWithClaims lib
      (Strings.TrimPrefix ((Gin.newContext req).GetHeader "Authorization") "Bearer ")
        jwtSecret now = Except.ok claims) :
    ((Gin.runHandlers [Product.authMiddleware lib jwtSecret now, Product.requireRole q]
        (Gin.newContext req)).aborted = true ↔ Product.hasPermission claims.Role q = false) ∧
    (Product.hasPermission claims.Role q = false →
      (Product.serve lib jwtSecret now biz req).response
          = some { status := 403, body := Gin.Body.H [("error", "权限不足")] } ∧
      Product.serve lib jwtSecret now biz req
        = Gin.runHandlers [Product.authMiddleware lib jwtSecret now, Product.requireRole q]
            (Gin.newContext req)) ∧
    (Product.hasPermission claims.Role q = true →
      (Gin.runHandlers [Product.authMiddleware lib jwtSecret now, Product.requireRole q]
        (Gin.newContext req)).response = none ∧
      Product.serve lib jwtSecret now biz req
        = biz e (Gin.runHandlers [Product.authMiddleware lib jwtSecret now,
            Product.requireRole q] (Gin.newContext req))) ∧
    (Product.requiredRoleOf Product.Endpoint.createProduct = some "EDITOR" ∧
      Product.requiredRoleOf Product.Endpoint.updateProduct = some "EDITOR" ∧
      Product.requiredRoleOf Product.Endpoint.deleteProduct = some "EDITOR" ∧
      Product.requiredRoleOf Product.Endpoint.getProducts = some "USER" ∧
      Product.requiredRoleOf Product.Endpoint.getProduct = some "USER") ∧
    (claims.Role = "USER" → q = "EDITOR" →
      (Product.serve lib jwtSecret now biz req).response
          = some { status := 403, body := Gin.Body.H [("error", "权限不足")] }) ∧
    (claims.Role = "USER" → q = "USER" →
      Product.serve lib jwtSecret now biz req
        = biz e (Gin.runHandlers [Product.authMiddleware lib jwtSecret now,
            Product.requireRole q] (Gin.newContext req))) := by
  have hpath : (Gin.newContext req).Request.Path ≠ "/health" :=
    Product.lookup_found_ne_health req.Method req.Path e q hroute hq
  obtain ⟨hrole, hab, hresp⟩ := Product.authMiddleware_valid_role lib jwtSecret now
    (Gin.newContext req) hpath hhdr claims hparse
  have hab' : (Product.authMiddleware lib jwtSecret now (Gin.newContext req)).aborted = false := by
    rw [hab]; rfl
  have hresp' : (Product.authMiddleware lib jwtSecret now (Gin.newContext req)).response
      = none := by
    rw [hresp]; rfl
  have hserve : Product.serve lib jwtSecret now biz req
      = Gin.runHandlers [Product.authMiddleware lib jwtSecret now, Product.requireRole q, biz e]
          (Gin.newContext req) := by
    simp [Product.serve, hroute, Product.routeHandlers, hq]
  have hdenied : Product.hasPermission claims.Role q = false →
      Gin.runHandlers [Product.authMiddleware lib jwtSecret now, Product.requireRole q]
          (Gin.newContext req)
        = ((Product.authMiddleware lib jwtSecret now (Gin.newContext req)).JSON 403
            (Gin.Body.H [("error", "权限不足")])).Abort ∧
      Product.serve lib jwtSecret now biz req
        = ((Product.authMiddleware lib jwtSecret now (Gin.newContext req)).JSON 403
            (Gin.Body.H [("error", "权限不足")])).Abort := by
    intro hp
    rw [← hrole] at hp
    rw [hserve]
    simp [Gin.runHandlers, hab', Product.requireRole_denied q _ hp, Gin.Context.Abort]
  have hpermitted : Product.hasPermission claims.Role q = true →
      Gin.runHandlers [Product.authMiddleware lib jwtSecret now, Product.requireRole q]
          (Gin.newContext req)
        = Product.authMiddleware lib jwtSecret now (Gin.newContext req) ∧
      Product.serve lib jwtSecret now biz req
        = biz e (Product.authMiddleware lib jwtSecret now (Gin.newContext req)) := by
    intro hp
    rw [← hrole] at hp
    rw [hserve]
    simp [Gin.runHandlers, hab', Product.requireRole_permitted q _ hp]
  refine ⟨?_, ?_, ?_, by decide, ?_, ?_⟩
  · cases hp : Product.hasPermission claims.Role q with
    | false =>
      rw [(hdenied hp).1]
      simp [Gin.Context.Abort]
    | true =>
      rw [(hpermitted hp).1]
      simp [hab']
  · intro hp
    rw [(hdenied hp).1, (hdenied hp).2]
    simp [Gin.Context.Abort, Gin.Context.JSON]
  · intro hp
    rw [(hpermitted hp).1, (hpermitted hp).2]
    exact ⟨hresp', rfl⟩
  · intro hr hq'
    have hp : Product.hasPermission claims.Role q = false := by
      rw [hr, hq']; decide
    rw [(hdenied hp).2]
    simp [Gin.Context.Abort, Gin.Context.JSON]
  · intro hr hq'
    have hp : Product.hasPermission claims.Role q = true := by
      rw [hr, hq']; decide
    rw [(hpermitted hp).1, (hpermitted hp).2]

/-! ### Facts of the concrete scenario -/

theorem Scenario.header (method path : String) :
    (Gin.newContext (Scenario.request method path)).GetHeader "Authorization"
      = "Bearer " ++ Scenario.token := by
  simp [Gin.Context.GetHeader, Gin.newContext, Scenario.request, List.lookup]

theorem Scenario.header_ne (method path : String) :
    (Gin.newContext (Scenario.request method path)).GetHeader "Authorization" ≠ "" := by
  rw [Scenario.header]
  intro h
  have hlen := congrArg String.length h
  rw [String.length_append] at hlen
  have h7 : "Bearer ".length = 7 := by decide
  have h0 : "".length = 0 := by decide
  omega

theorem Scenario.parse (method path : String) :
    Product.ParseWithClaims JWT.plainLib
      (Strings.TrimPrefix ((Gin.newContext (Scenario.request method path)).GetHeader
        "Authorization") "Bearer ") Scenario.secret 0
      = Except.ok { UserID := 7, Username := "alice", Role := "USER",
                    ExpiresAt := some (((0 + UAA.day) / JWT.second : Nat) : Int),
                    NotBefore := none } := by
  rw [Scenario.header, Strings.TrimPrefix_append]
  exact Product.ParseWithClaims_generateToken JWT.plainLib JWT.plainLib_decode_encode
    Scenario.secret Scenario.alice (by decide) 0 0 (by decide)

/-- C3, in the concrete scenario: the USER token of `alice` on `POST /products`,
a route that declares EDITOR, is answered 403. -/
theorem Product.gate_rejects_iff_not_permitted_witness :
    (Product.serve JWT.plainLib Scenario.secret 0 Scenario.biz
        (Scenario.request "POST" "/products")).response
      = some { status := 403, body := Gin.Body.H [("error", "权限不足")] } :=
  (Product.gate_rejects_iff_not_permitted JWT.plainLib Scenario.secret 0 Scenario.biz
    (Scenario.request "POST" "/products") Product.Endpoint.createProduct "EDITOR"
    (by decide) (by decide) _ (Scenario.header_ne _ _) (Scenario.parse _ _)).2.2.2.2.1 rfl rfl

/-! ### The health check -/

theorem Product.serve_health (lib : JWT.Lib) (jwtSecret : Bytes) (now : Nat)
    (biz : Product.Endpoint → Gin.HandlerFunc) (req : Gin.Request)
    (hpath : req.Path = "/health") :
    (Product.serve lib jwtSecret now biz req).response
      = if req.Method = "GET" then
          some { status := 200, body := Gin.Body.H [("status", "ok")] }
        else some Gin.default404 := by
  have hgate : Product.authMiddleware lib jwtSecret now (Gin.newContext req)
      = Gin.newContext req :=
    Product.authMiddleware_health lib jwtSecret now _ hpath
  by_cases hm : req.Method = "GET"
  · have hroute : Gin.lookupRoute Product.routes req.Method req.Path
        = Gin.Lookup.found Product.Endpoint.health := by
      rw [hm, hpath]; exact Product.lookup_health_get
    unfold Product.serve
    rw [hroute, if_pos hm]
    simp only [Product.routeHandlers, Product.requiredRoleOf, Gin.runHandlers, hgate]
    simp [Gin.newContext, Product.healthHandler, Gin.Context.JSON]
  · have hroute : Gin.lookupRoute Product.routes req.Method req.Path = Gin.Lookup.notFound := by
      rw [hpath]; exact Product.lookup_health_other _ hm
    unfold Product.serve
    rw [hroute, if_neg hm]
    simp only [Gin.runHandlers, hgate]
    simp [Gin.newContext]

/-- C4: on the path `/health` the gate of the product service hands the request
on untouched, whatever the library, the secret, the clock and the headers are
(no credential is read or verified); two requests to `/health` that differ only
in their headers get the same reply; and that reply, for the registered
`GET /health`, is 200 with body `{"status":"ok"}`. -/
theorem Product.health_bypasses_gate (lib : JWT.Lib) (jwtSecret : Bytes) (now : Nat)
    (biz : Product.Endpoint → Gin.HandlerFunc) (req : Gin.Request)
    (hpath : req.Path = "/health") :
    (∀ c : Gin.Context, c.Request = req → Product.authMiddleware lib jwtSecret now c = c) ∧
    (∀ header : List (String × String),
      (Product.serve lib jwtSecret now biz { req with Header := header }).response
        = (Product.serve lib jwtSecret now biz req).response) ∧
    (req.Method = "GET" →
      ∀ header : List (String × String),
        (Product.serve lib jwtSecret now biz { req with Header := header }).response
          = some { status := 200, body := Gin.Body.H [("status", "ok")] }) := by
  refine ⟨?_, ?_, ?_⟩
  · intro c hc
    exact Product.authMiddleware_health lib jwtSecret now c (by rw [hc]; exact hpath)
  · intro header
    rw [Product.serve_health lib jwtSecret now biz req hpath,
      Product.serve_health lib jwtSecret now biz { req with Header := header } hpath]
  · intro hm header
    rw [Product.serve_health lib jwtSecret now biz { req with Header := header } hpath]
    simp [hm]

/-- C4, at two concrete requests: `GET /health` without any header and with a
malformed Authorization header are both answered 200 `{"status":"ok"}`. -/
theorem Product.health_bypasses_gate_witness :
    (Product.serve JWT.plainLib Scenario.secret 0 Scenario.biz
        { Method := "GET", Path := "/health",
          Header := [("Authorization", "Bearer garbage")] }).response
      = some { status := 200, body := Gin.Body.H [("status", "ok")] } :=
  (Product.health_bypasses_gate JWT.plainLib Scenario.secret 0 Scenario.biz
    { Method := "GET", Path := "/health", Header := [] } rfl).2.2 rfl
      [("Authorization", "Bearer garbage")]

/-! ### The gateway: path rewriting and registry lookup -/

theorem Gateway.rewritePath_ne_empty (serviceName originalPath : String) :
    Gateway.rewritePath serviceName originalPath ≠ "" := by
  unfold Gateway.rewritePath
  generalize (if serviceName = "uaa" then Strings.TrimPrefix originalPath "/auth"
    else if serviceName = "product" then Strings.TrimPrefix originalPath "/products"
    else originalPath) = path
  by_cases h : path = ""
  · simp [h]
  · simp [h]

/-- C5: for the product service a path `/products` followed by `rest` is
forwarded as `rest`, the leading `/products` removed once (a second
`/products` in `rest` stays), and for the uaa service a path `/auth` followed
by `rest` is forwarded as `rest`; an empty remainder is forwarded as `/`; the
forwarded path is never empty; `/products/42` is forwarded as `/42`. -/
theorem Gateway.rewritePath_strips_once :
    (∀ rest : String, Gateway.rewritePath "product" ("/products" ++ rest)
      = if rest = "" then "/" else rest) ∧
    (∀ rest : String, Gateway.rewritePath "uaa" ("/auth" ++ rest)
      = if rest = "" then "/" else rest) ∧
    (∀ serviceName originalPath : String,
      Gateway.rewritePath serviceName originalPath ≠ "") ∧
    Gateway.rewritePath "product" "/products/42" = "/42" ∧
    Gateway.rewritePath "product" "/products/products/42" = "/products/42" ∧
    Gateway.rewritePath "product" "/products" = "/" ∧
    Gateway.rewritePath "uaa" "/auth/login" = "/login" := by
  refine ⟨?_, ?_, Gateway.rewritePath_ne_empty, by decide, by decide, by decide, by decide⟩
  · intro rest
    have h : ("product" = "uaa") = False := by decide
    simp only [Gateway.rewritePath, h, if_false, if_true, Strings.TrimPrefix_append]
  · intro rest
    simp only [Gateway.rewritePath, if_true, Strings.TrimPrefix_append]

theorem Gateway.unavailable_message_names_service (serviceName : String) :
    List.IsInfix serviceName.data ("服务 " ++ serviceName ++ " 不可用").data :=
  ⟨"服务 ".data, " 不可用".data, by simp [String.data_append]⟩

/-- C6: when the registry query fails or returns no healthy instance,
`getServiceAddress` returns an error and `proxyToService` answers 503 with the
body `{"error": m}` where `m` contains the service name, and hands nothing to
the reverse proxy; when the query returns a non-empty list, the address is
`Address:Port` of its first entry and a forwarded request goes to the URL
parsed from `http://Address:Port`. -/
theorem Gateway.proxyToService_unavailable (healthService : Gateway.HealthService)
    (urlParse : String → Option String) (serviceName : String) (req : Gin.Request) :
    (((∃ err, healthService serviceName = Except.error err) ∨
        healthService serviceName = Except.ok []) →
      (∃ err, Gateway.getServiceAddress healthService serviceName = Except.error err) ∧
      (∃ message, Gateway.proxyToService healthService urlParse serviceName req
          = Gateway.Outcome.json 503 (Gin.Body.H [("error", message)]) ∧
        List.IsInfix serviceName.data message.data) ∧
      (∀ target request, Gateway.proxyToService healthService urlParse serviceName req
          ≠ Gateway.Outcome.forward target request)) ∧
    (∀ first others, healthService serviceName = Except.ok (first :: others) →
      Gateway.getServiceAddress healthService serviceName
        = Except.ok (first.Address ++ ":" ++ toString first.Port) ∧
      (∀ target request, Gateway.proxyToService healthService urlParse serviceName req
          = Gateway.Outcome.forward target request →
        urlParse ("http://" ++ (first.Address ++ ":" ++ toString first.Port)) = some target) ∧
      (∀ target, urlParse ("http://" ++ (first.Address ++ ":" ++ toString first.Port))
          = some target →
        Gateway.proxyToService healthService urlParse serviceName req
          = Gateway.Outcome.forward target
              { req with Path := Gateway.rewritePath serviceName req.Path })) := by
  refine ⟨?_, ?_⟩
  · intro h
    have haddr : ∃ err, Gateway.getServiceAddress healthService serviceName
        = Except.error err := by
      rcases h with ⟨err, h⟩ | h
      · exact ⟨err, by simp [Gateway.getServiceAddress, h]⟩
      · exact ⟨"服务 " ++ serviceName ++ " 未找到", by simp [Gateway.getServiceAddress, h]⟩
    obtain ⟨err, haddr'⟩ := haddr
    have hproxy : Gateway.proxyToService healthService urlParse serviceName req
        = Gateway.Outcome.json 503
            (Gin.Body.H [("error", "服务 " ++ serviceName ++ " 不可用")]) := by
      simp [Gateway.proxyToService, haddr']
    refine ⟨⟨err, haddr'⟩, ⟨_, hproxy, Gateway.unavailable_message_names_service serviceName⟩, ?_⟩
    intro target request
    rw [hproxy]
    simp
  · intro first others h
    have haddr : Gateway.getServiceAddress healthService serviceName
        = Except.ok (first.Address ++ ":" ++ toString first.Port) := by
      simp [Gateway.getServiceAddress, h]
    refine ⟨haddr, ?_, ?_⟩
    · intro target request hfw
      unfold Gateway.proxyToService at hfw
      rw [haddr] at hfw
      cases hu : urlParse ("http://" ++ (first.Address ++ ":" ++ toString first.Port)) with
      | none => simp [hu] at hfw
      | some t =>
        simp only [hu] at hfw
        injection hfw with h1 h2
        rw [h1]
    · intro target hu
      unfold Gateway.proxyToService
      rw [haddr]
      simp only [hu]

/-- C6, at two concrete registries: with no healthy instance of `product` the
gateway answers 503 and names the service; with one instance at
`product:8081` the request `/products/42` is forwarded there. -/
theorem Gateway.proxyToService_unavailable_witness :
    (∃ message, Gateway.proxyToService (fun _ => Except.ok []) some "product"
        { Method := "GET", Path := "/products/42", Header := [] }
          = Gateway.Outcome.json 503 (Gin.Body.H [("error", message)]) ∧
        List.IsInfix "product".data message.data) ∧
    Gateway.getServiceAddress
        (fun _ => Except.ok [{ Address := "product", Port := 8081 }]) "product"
      = Except.ok ("product" ++ ":" ++ toString (8081 : Int)) :=
  ⟨((Gateway.proxyToService_unavailable (fun _ => Except.ok []) some "product"
      { Method := "GET", Path := "/products/42", Header := [] }).1 (Or.inr rfl)).2.1,
   ((Gateway.proxyToService_unavailable
      (fun _ => Except.ok [{ Address := "product", Port := 8081 }]) some "product"
      { Method := "GET", Path := "/products/42", Header := [] }).2
        { Address := "product", Port := 8081 } [] rfl).1⟩

/-! ### End to end through the gateway -/

theorem Product.serve_unrouted_valid (lib : JWT.Lib) (jwtSecret : Bytes) (now : Nat)
    (biz : Product.Endpoint → Gin.HandlerFunc) (req : Gin.Request)
    (hroute : Gin.lookupRoute Product.routes req.Method req.Path = Gin.Lookup.notFound)
    (hpath : req.Path ≠ "/health")
    (hhdr : (Gin.newContext req).GetHeader "Authorization" ≠ "") (claims : Product.UserClaims)
    (hparse : Product.ParseWithClaims lib
      (Strings.TrimPrefix ((Gin.newContext req).GetHeader "Authorization") "Bearer ")
        jwtSecret now = Except.ok claims) :
    (Product.serve lib jwtSecret now biz req).response = some Gin.default404 := by
  obtain ⟨_, hab, hresp⟩ := Product.authMiddleware_valid_role lib jwtSecret now
    (Gin.newContext req) hpath hhdr claims hparse
  have hresp' : (Product.authMiddleware lib jwtSecret now (Gin.newContext req)).response
      = none := by
    rw [hresp]; rfl
  have hrun : Gin.runHandlers [Product.authMiddleware lib jwtSecret now] (Gin.newContext req)
      = Product.authMiddleware lib jwtSecret now (Gin.newContext req) := by
    simp [Gin.runHandlers]
  unfold Product.serve
  rw [hroute]
  simp only [hrun, hresp']

theorem splitSlash_of_no_slash (l : List Char) (h : '/' ∉ l) : splitSlash l = [l] := by
  induction l with
  | nil => rfl
  | cons c cs ih =>
    have hc : c ≠ '/' := fun hc => h (by simp [hc])
    have hcs : '/' ∉ cs := fun hcs => h (by simp [hcs])
    simp [splitSlash, hc, ih hcs]

theorem Gin.lookupRoute_found {α : Type} (routes : List (Gin.Route α)) (m p : String) (a : α)
    (h : Gin.lookupRoute routes m p = Gin.Lookup.found a) :
    ∃ r ∈ routes, r.matches m p = true ∧ r.target = a := by
  unfold Gin.lookupRoute at h
  cases hf : routes.find? (fun r => r.matches m p) with
  | none =>
    rw [hf] at h
    simp only [] at h
    split at h <;> cases h
  | some r =>
    rw [hf] at h
    simp only [] at h
    injection h with h
    exact ⟨r, List.mem_of_find?_eq_some hf, by simpa using List.find?_some hf, h⟩

theorem Product.forwarded_id_not_getProduct (id : String) (hid : '/' ∉ id.data) :
    Gateway.rewritePath "product" ("/products/" ++ id) = "/" ++ id ∧
    Gin.lookupRoute Product.routes "GET" (Gateway.rewritePath "product" ("/products/" ++ id))
      ≠ Gin.Lookup.found Product.Endpoint.getProduct := by
  have hsplit : "/products/" ++ id = "/products" ++ ("/" ++ id) := by
    apply String.ext
    simp [String.data_append]
  have hne : "/" ++ id ≠ "" := by
    intro h
    have hlen := congrArg String.length h
    rw [String.length_append] at hlen
    have h1 : "/".length = 1 := by decide
    have h0 : "".length = 0 := by decide
    omega
  have hrw : Gateway.rewritePath "product" ("/products/" ++ id) = "/" ++ id := by
    have h : ("product" = "uaa") = False := by decide
    simp only [Gateway.rewritePath, h, if_false, if_true, hsplit, Strings.TrimPrefix_append,
      hne]
  refine ⟨hrw, ?_⟩
  rw [hrw]
  intro hfound
  obtain ⟨r, hr, hmatch, htarget⟩ := Gin.lookupRoute_found _ _ _ _ hfound
  have hsegs : splitSlash ("/" ++ id).data = [[], id.data] := by
    have : ("/" ++ id).data = '/' :: id.data := by simp [String.data_append]
    rw [this]
    simp [splitSlash, splitSlash_of_no_slash id.data hid]
  simp only [Product.routes, List.mem_cons, List.mem_singleton, List.not_mem_nil,
    or_false] at hr
  rcases hr with rfl | rfl | rfl | rfl | rfl | rfl <;>
    first
      | (simp at htarget; done)
      | (simp only [Gin.Route.matches, hsegs] at hmatch
         have hpat : splitSlash "/products/:id".data
             = [[], "products".data, ":id".data] := by decide
         rw [hpat] at hmatch
         simp [Gin.matchSegments] at hmatch)

/-- C7 (the code departs from the claim): the gateway strips `/products` and
`/auth`, while the product and identity services register their routes under
those very groups.  `GET /products/42` is forwarded as `/42`, which the product
service does not route (sent straight to the service, `/products/42` reaches
`getProduct`): with the valid USER token of the scenario the reply is the 404
of the router.  `GET /products` is redirected to `/products/` and forwarded as
`/`, not routed either; `POST /auth/login` is forwarded as `/login`, which the
identity service does not route (its route is `/auth/login`). -/
theorem Gateway.forwarded_paths_miss_backend_routes :
    Gin.lookupRoute Gateway.routes "GET" "/products/42"
      = Gin.Lookup.found (Gateway.Endpoint.proxy "product") ∧
    Gateway.rewritePath "product" "/products/42" = "/42" ∧
    Gin.lookupRoute Product.routes "GET" (Gateway.rewritePath "product" "/products/42")
      = Gin.Lookup.notFound ∧
    (Product.serve JWT.plainLib Scenario.secret 0 Scenario.biz
        (Scenario.request "GET" (Gateway.rewritePath "product" "/products/42"))).response
      = some Gin.default404 ∧
    Gin.lookupRoute Product.routes "GET" "/products/42"
      = Gin.Lookup.found Product.Endpoint.getProduct ∧
    Gin.lookupRoute Gateway.routes "GET" "/products" = Gin.Lookup.redirect "/products/" ∧
    Gin.lookupRoute Gateway.routes "GET" "/products/"
      = Gin.Lookup.found (Gateway.Endpoint.proxy "product") ∧
    Gateway.rewritePath "product" "/products/" = "/" ∧
    Gin.lookupRoute Product.routes "GET" (Gateway.rewritePath "product" "/products/")
      = Gin.Lookup.notFound ∧
    Gin.lookupRoute Gateway.routes "POST" "/auth/login"
      = Gin.Lookup.found (Gateway.Endpoint.proxy "uaa") ∧
    Gateway.rewritePath "uaa" "/auth/login" = "/login" ∧
    Gin.lookupRoute UAA.routes "POST" (Gateway.rewritePath "uaa" "/auth/login")
      = Gin.Lookup.notFound ∧
    Gin.lookupRoute UAA.routes "POST" "/auth/login"
      = Gin.Lookup.found UAA.Endpoint.login := by
  refine ⟨by decide, by decide, by decide, ?_, by decide, by decide, by decide, by decide,
    by decide, by decide, by decide, by decide, by decide⟩
  have hpath : Gateway.rewritePath "product" "/products/42" = "/42" := by decide
  rw [hpath]
  exact Product.serve_unrouted_valid JWT.plainLib Scenario.secret 0 Scenario.biz
    (Scenario.request "GET" "/42") (by decide) (by decide) (Scenario.header_ne _ _) _
    (Scenario.parse _ _)

/-! ### Round trip between issuer and verifier -/

/-- C8: the token `generateToken` issues to `user` at `issued` under `secret`,
presented as `Bearer <token>` to `authMiddleware` under the same secret at an
instant before the token's expiry (24 hours after issuance, in whole seconds),
is accepted: the gate does not abort and writes no reply, and the identity it
attaches to the context is the user's `ID`, `Username` and `Role`.  The wire
codec of the library is assumed to round-trip (`hcodec`); `hid` is the range of
the Go type `uint` of `User.ID`. -/
theorem Product.authMiddleware_accepts_issued_token (lib : JWT.Lib)
    (hcodec : ∀ t : JWT.Token, lib.decode (lib.encode t) = some t)
    (secret : Bytes) (user : UAA.User) (hid : user.ID < 2 ^ 64) (issued now : Nat)
    (hnow : now < UAA.expiry issued)
    (c : Gin.Context) (hpath : c.Request.Path ≠ "/health")
    (hhdr : c.GetHeader "Authorization"
      = "Bearer " ++ UAA.generateToken lib secret issued user) :
    (Product.authMiddleware lib secret now c).aborted = c.aborted ∧
    (Product.authMiddleware lib secret now c).response = c.response ∧
    (Product.authMiddleware lib secret now c).Keys.lookup "user_id"
      = some (Gin.KeyValue.uint user.ID) ∧
    (Product.authMiddleware lib secret now c).Keys.lookup "username"
      = some (Gin.KeyValue.str user.Username) ∧
    (Product.authMiddleware lib secret now c).Keys.lookup "role"
      = some (Gin.KeyValue.str user.Role) := by
  have hne : c.GetHeader "Authorization" ≠ "" := by
    rw [hhdr]
    intro h
    have hlen := congrArg String.length h
    rw [String.length_append] at hlen
    have h7 : "Bearer ".length = 7 := by decide
    have h0 : "".length = 0 := by decide
    omega
  have hparse := Product.ParseWithClaims_generateToken lib hcodec secret user hid issued now hnow
  rw [← Strings.TrimPrefix_append "Bearer " (UAA.generateToken lib secret issued user),
    ← hhdr] at hparse
  rw [Product.authMiddleware_valid lib secret now c hpath hne _ hparse]
  simp [Gin.Context.Set, List.lookup]

/-- C8, in the concrete scenario: the token issued to `alice` at instant 0 is
accepted on `GET /products` at instant 0 and the gate attaches role `USER`. -/
theorem Product.authMiddleware_accepts_issued_token_witness :
    (Product.authMiddleware JWT.plainLib Scenario.secret 0
        (Gin.newContext (Scenario.request "GET" "/products"))).Keys.lookup "role"
      = some (Gin.KeyValue.str "USER") :=
  (Product.authMiddleware_accepts_issued_token JWT.plainLib JWT.plainLib_decode_encode
    Scenario.secret Scenario.alice (by decide) 0 0 (by decide)
    (Gin.newContext (Scenario.request "GET" "/products")) (by decide)
    (Scenario.header "GET" "/products")).2.2.2.2

/-! ### The system credential -/

theorem JWT.plainLib_hmac_ne (alg : String) (claims : JWT.MapClaims) :
    (JWT.plainLib.hmac alg (bytesOfString "s3cret") claims
      == JWT.plainLib.hmac alg [] claims) = false := by
  rw [beq_eq_false_iff_ne]
  intro h
  have hlen := congrArg List.length h
  have h6 : (bytesOfString "s3cret").length = 6 := by decide
  simp [JWT.plainLib, h6] at hlen

theorem Product.ParseWithClaims_wrong_key (lib : JWT.Lib)
    (hcodec : ∀ t : JWT.Token, lib.decode (lib.encode t) = some t)
    (claims : JWT.MapClaims) (decoded : Product.UserClaims)
    (hdecoded : Product.UserClaims.unmarshal claims = some decoded)
    (signingKey key : Bytes) (now : Nat)
    (hmac : (lib.hmac "HS256" key claims == lib.hmac "HS256" signingKey claims) = false) :
    Product.ParseWithClaims lib (JWT.SignedString lib claims signingKey) key now
      = Except.error JWT.Error.signatureInvalid := by
  have halg : JWT.isHMAC "HS256" = true := by decide
  unfold Product.ParseWithClaims JWT.SignedString
  rw [hcodec]
  simp only [hdecoded, halg, JWT.verifySignature, hmac]
  simp

theorem Product.main_spec (lib : JWT.Lib) (env : String → String) (now : Nat) :
    (Product.main lib env now).1 = JWT.SignedString lib (Product.systemClaims now) [] ∧
    (Product.main lib env now).2.jwtSecret = bytesOfString (env "JWT_SECRET") := by
  have hk : ("JWT_SECRET" = "SYSTEM_TOKEN") = False := by decide
  simp [Product.main, Product.generateSystemToken, Product.initialGlobals, Product.Setenv, hk]

theorem Product.unmarshal_systemClaims :
    Product.UserClaims.unmarshal (Product.systemClaims 0)
      = some { UserID := 0, Username := "", Role := "SYSTEM",
               ExpiresAt := some (((0 + Product.tenYears) / JWT.second : Nat) : Int),
               NotBefore := none } := rfl

/-- C9 (the code departs from the claim): `main` calls `generateSystemToken`
before it loads `jwtSecret`, so for every environment the system token is
signed with the zero value of `jwtSecret`, the empty key, while the gate then
runs with the bytes of `JWT_SECRET`.  With `JWT_SECRET=s3cret` the two keys
differ, and over `JWT.plainLib` the system token fails verification under the
secret of the gate. -/
theorem Product.main_signs_system_token_with_empty_key :
    (∀ (lib : JWT.Lib) (env : String → String) (now : Nat),
      (Product.main lib env now).1 = JWT.SignedString lib (Product.systemClaims now) [] ∧
      (Product.main lib env now).2.jwtSecret = bytesOfString (env "JWT_SECRET")) ∧
    (Product.main JWT.plainLib Scenario.env 0).2.jwtSecret ≠ [] ∧
    Product.ParseWithClaims JWT.plainLib (Product.main JWT.plainLib Scenario.env 0).1
        (Product.main JWT.plainLib Scenario.env 0).2.jwtSecret 0
      = Except.error JWT.Error.signatureInvalid := by
  have henv : Scenario.env "JWT_SECRET" = "s3cret" := by decide
  refine ⟨Product.main_spec, ?_, ?_⟩
  · rw [(Product.main_spec JWT.plainLib Scenario.env 0).2, henv]
    decide
  · rw [(Product.main_spec JWT.plainLib Scenario.env 0).1,
      (Product.main_spec JWT.plainLib Scenario.env 0).2, henv]
    exact Product.ParseWithClaims_wrong_key JWT.plainLib JWT.plainLib_decode_encode _ _
      Product.unmarshal_systemClaims _ _ _ (JWT.plainLib_hmac_ne _ _)

/-! ### The identity service's token validation -/

theorem JWT.Parse_SignedString (lib : JWT.Lib)
    (hcodec : ∀ t : JWT.Token, lib.decode (lib.encode t) = some t)
    (claims : JWT.MapClaims) (key : Bytes) (now : Nat)
    (hv : JWT.validate claims now = Except.ok ()) :
    JWT.Parse lib (JWT.SignedString lib claims key) key now = Except.ok claims := by
  have halg : JWT.isHMAC "HS256" = true := by decide
  unfold JWT.Parse JWT.SignedString
  rw [hcodec]
  simp only [halg, JWT.verifySignature, hv]
  simp

theorem UAA.validateToken_missing_user_id (lib : JWT.Lib)
    (hcodec : ∀ t : JWT.Token, lib.decode (lib.encode t) = some t)
    (claims : JWT.MapClaims) (key : Bytes) (now : Nat)
    (hv : JWT.validate claims now = Except.ok ())
    (hmissing : List.lookup "user_id" claims = none)
    (dbFirst : Nat → Option UAA.User) (toUint : Int → Nat) (req : Gin.Request)
    (hhdr : (req.Header.lookup "Authorization").getD ""
      = "Bearer " ++ JWT.SignedString lib claims key) :
    UAA.validateToken lib key now dbFirst toUint req
      = UAA.Outcome.panic "interface conversion: interface \x7b\x7d is nil, not float64" := by
  have hne : "Bearer " ++ JWT.SignedString lib claims key ≠ "" := by
    intro h
    have hlen := congrArg String.length h
    rw [String.length_append] at hlen
    have h7 : "Bearer ".length = 7 := by decide
    have h0 : "".length = 0 := by decide
    omega
  have hparse := JWT.Parse_SignedString lib hcodec claims key now hv
  unfold UAA.validateToken
  simp only [hhdr, hne, if_false, Strings.TrimPrefix_append, hparse, hmissing,
    UAA.assertFloat64]

/-- C10 (the code departs from the claim): a token that verifies under the
shared secret and carries no `user_id` claim (here the claims of the product
service's system credential) makes `validateToken` fault: the type assertion
`claims["user_id"].(float64)` panics, whatever the database and the numeric
conversion are, and no 200 or 401 reply is written by the handler. -/
theorem UAA.validateToken_panics_without_user_id (dbFirst : Nat → Option UAA.User)
    (toUint : Int → Nat) :
    UAA.validateToken JWT.plainLib Scenario.secret 0 dbFirst toUint Scenario.systemRequest
      = UAA.Outcome.panic "interface conversion: interface \x7b\x7d is nil, not float64" :=
  UAA.validateToken_missing_user_id JWT.plainLib JWT.plainLib_decode_encode
    (Product.systemClaims 0) Scenario.secret 0
    (JWT.validate_of_exp _ ((0 + Product.tenYears) / JWT.second) 0 rfl rfl (by decide))
    rfl dbFirst toUint Scenario.systemRequest rfl
